import Mathlib

/-!
Shallow embedding of the point-cloud density pipeline of
`src/code/Download_Activity .py` (the "PointCloudDensityEngine" of the spec).

The numeric core of the script (lines 94-190) is a single-pass transform:
filter city records, distribute each country's traffic over its cities by
population weight, log-compress the per-city traffic to a point budget,
generate three tiers of jittered points per city, fail when no points were
produced, and optionally downsample the final point list.

Modelling choices:
  * CSV decimal values are embedded as rationals (`ℚ`); the log / normalization
    stage works over `ℝ` with `Real.log`.
  * A possibly non-finite float (needed for the `replace([inf,-inf], nan)`
    and `fillna(0)` steps at lines 113-114) is embedded as `FVal`: either a
    finite rational or one of the IEEE specials.
  * The seeded pseudo-random normal stream (`np.random.seed` at line 146 and
    the sequential `np.random.normal` calls) is embedded as an abstract draw
    stream `noise : ℕ → ℝ` consumed in order; a family `ℕ → ℕ → ℝ` maps a
    seed to its stream.  Likewise `points.sample` (line 187) is embedded as a
    seed-determined permutation followed by `take`.
-/

/-- A pandas float cell: a finite rational or one of the IEEE specials.
Non-finite values can reach the engine from upstream float arithmetic. -/
inductive FVal where
  | fin (q : ℚ)
  | posInf
  | negInf
  | nan
deriving DecidableEq

/-- Multiplication of a possibly non-finite value by a (non-negative, in the
pipeline in fact positive) finite weight, as in line 110
`merged["city_traffic_tb"] = merged["traffic_tb"] * merged["pop_weight"]`.
A special stays special under multiplication by a positive finite float. -/
def FVal.mulPos : FVal → ℚ → FVal
  | .fin q, w => .fin (q * w)
  | .posInf, _ => .posInf
  | .negInf, _ => .negInf
  | .nan, _ => .nan

/-- Lines 113-114: `replace([np.inf, -np.inf], np.nan)` then `fillna(0)` —
every non-finite value is coerced to 0, finite values pass through. -/
def FVal.cleaned : FVal → ℚ
  | .fin q => q
  | _ => 0

/-- True exactly on finite values. -/
def FVal.isFinite : FVal → Bool
  | .fin _ => true
  | _ => false

/-- One row of the merged frame entering the numeric core: a city with its
coordinates and population, carrying its country's total traffic
(`traffic_tb` after the inner join of line 102). -/
structure CityRecord where
  iso3 : String
  lat : ℚ
  lng : ℚ
  population : ℚ
  traffic_tb : FVal
deriving DecidableEq

/-- The recognized configuration options of `SteamMapConfig` that the numeric
core reads (rendering-only fields are omitted).  `CORE_FRAC`/`MID_FRAC`/
`OUTER_FRAC` embed the three tier fractions of the source configuration. -/
structure SteamMapConfig where
  POINT_SCALE : ℚ
  MAX_POINTS_PER_CITY : ℕ
  MAX_TOTAL_POINTS : ℕ
  CORE_FRAC : ℚ
  MID_FRAC : ℚ
  OUTER_FRAC : ℚ
  CORE_JITTER : ℚ
  MID_JITTER : ℚ
  OUTER_JITTER : ℚ
deriving DecidableEq

/-- The default configuration values of the source (lines 13-25):
scale 200.0, per-city cap 1500, total cap 4,000,000, tier fractions
0.40/0.35/0.25, jitters 0.06/0.20/0.50. -/
def config : SteamMapConfig :=
  { POINT_SCALE := 200
    MAX_POINTS_PER_CITY := 1500
    MAX_TOTAL_POINTS := 4000000
    CORE_FRAC := 2/5
    MID_FRAC := 7/20
    OUTER_FRAC := 1/4
    CORE_JITTER := 3/50
    MID_JITTER := 1/5
    OUTER_JITTER := 1/2 }

/-- Lines 94 and 97-100: keep records with positive population and
coordinates inside the valid latitude/longitude ranges. -/
def validRecord (r : CityRecord) : Bool :=
  decide (0 < r.population) && decide (-90 ≤ r.lat) && decide (r.lat ≤ 90)
    && decide (-180 ≤ r.lng) && decide (r.lng ≤ 180)

/-- The batch after the row filters of lines 94-100. -/
def prepBatch (batch : List CityRecord) : List CityRecord :=
  batch.filter validRecord

/-- Line 107: `merged.groupby("iso3")["population"].transform("sum")` — total
population of the records of country `c` in the frame `l`. -/
def country_pop (l : List CityRecord) (c : String) : ℚ :=
  ((l.filter (fun r => decide (r.iso3 = c))).map (fun r => r.population)).sum

/-- Line 108: drop the rows whose country has non-positive total population.
This is the frame the rest of the pipeline iterates over. -/
def merged (batch : List CityRecord) : List CityRecord :=
  (prepBatch batch).filter (fun r => decide (0 < country_pop (prepBatch batch) r.iso3))

/-- Line 109: a record's share of its country's population.  The divisor is
the `country_pop` column computed on the pre-filter frame of line 107. -/
def pop_weight (l : List CityRecord) (r : CityRecord) : ℚ :=
  r.population / country_pop l r.iso3

/-- Lines 110-114: the city's traffic share, with non-finite values coerced
to 0 (`replace` + `fillna`). -/
def city_traffic_tb (batch : List CityRecord) (r : CityRecord) : ℚ :=
  (r.traffic_tb.mulPos (pop_weight (prepBatch batch) r)).cleaned

/-- `np.log1p` on an exact rational input. -/
noncomputable def log1p (q : ℚ) : ℝ :=
  Real.log (1 + (q : ℝ))

/-- Line 122: `merged["city_traffic_log"] = np.log1p(merged["city_traffic_tb"])`. -/
noncomputable def city_traffic_log (batch : List CityRecord) (r : CityRecord) : ℝ :=
  log1p (city_traffic_tb batch r)

/-- Line 123: the maximum of the log column.  For a non-empty column of
non-negative logs `foldr max 0` is the pandas maximum; when the frame is
empty or the maximum is non-positive, line 124's `if max_log > 0` guard
fails either way, so the normalization step is skipped exactly as in the
source. -/
noncomputable def max_log (batch : List CityRecord) : ℝ :=
  ((merged batch).map (city_traffic_log batch)).foldr max 0

/-- Lines 124-125: divide the log column by its maximum when that maximum is
positive, otherwise leave the column unchanged. -/
noncomputable def normalized_density (batch : List CityRecord) (r : CityRecord) : ℝ :=
  if 0 < max_log batch then city_traffic_log batch r / max_log batch
  else city_traffic_log batch r

/-- Python's `int(...)` on a float: truncation toward zero. -/
def int_trunc (q : ℚ) : ℤ :=
  if q < 0 then -⌊-q⌋ else ⌊q⌋

/-- Lines 128-136: point budget as a function of the normalized density:
`floor(clip(x * POINT_SCALE, lower=0))`, then the minimum-one rule for rows
with positive normalized log, then `clip(upper=MAX_POINTS_PER_CITY)`. -/
noncomputable def budgetOfNorm (cfg : SteamMapConfig) (x : ℝ) : ℕ :=
  let raw : ℕ := (⌊max 0 (x * (cfg.POINT_SCALE : ℝ))⌋).toNat
  min (if raw = 0 ∧ 0 < x then 1 else raw) cfg.MAX_POINTS_PER_CITY

/-- Lines 128-136 applied to a record's normalized density: the
`num_points` column. -/
noncomputable def num_points (cfg : SteamMapConfig) (batch : List CityRecord)
    (r : CityRecord) : ℕ :=
  budgetOfNorm cfg (normalized_density batch r)

/-- Line 160: `n_core = int(total * config.CORE_RATIO)`. -/
def n_core (cfg : SteamMapConfig) (total : ℕ) : ℤ :=
  int_trunc ((total : ℚ) * cfg.CORE_FRAC)

/-- Line 166: `n_mid = int(total * config.MID_RATIO)`. -/
def n_mid (cfg : SteamMapConfig) (total : ℕ) : ℤ :=
  int_trunc ((total : ℚ) * cfg.MID_FRAC)

/-- Line 172: `n_outer = total - n_core - n_mid` — the outer tier absorbs
the rounding remainder. -/
def n_outer (cfg : SteamMapConfig) (total : ℕ) : ℤ :=
  (total : ℤ) - n_core cfg total - n_mid cfg total

/-- One tier's draws: `np.random.normal(center, sigma, n)` for the latitudes
followed by the same call for the longitudes, consuming `2 * n` entries of
the seeded stream starting at position `k`.  Point `i` of the tier is
`(lat + sigma * z_i, lng + sigma * z_{n+i})` where `z` are the raw standard
draws of the stream. -/
noncomputable def genTier (center : ℚ × ℚ) (sigma : ℚ) (n : ℕ) (noise : ℕ → ℝ)
    (k : ℕ) : List (ℝ × ℝ) :=
  (List.range n).map (fun i =>
    ((center.1 : ℝ) + (sigma : ℝ) * noise (k + i),
     (center.2 : ℝ) + (sigma : ℝ) * noise (k + n + i)))

/-- Lines 151-175: one iteration of the generation loop.  A record with zero
budget is skipped (`if total <= 0: continue`); otherwise the three tiers are
generated in order (a tier with non-positive count contributes no points and
consumes no draws, exactly as the `if n > 0` guards of the source).  Returns
the produced points and the stream position after the record. -/
noncomputable def genRecord (cfg : SteamMapConfig) (center : ℚ × ℚ) (total : ℕ)
    (noise : ℕ → ℝ) (k : ℕ) : List (ℝ × ℝ) × ℕ :=
  if total = 0 then ([], k)
  else
    let nc := (n_core cfg total).toNat
    let nm := (n_mid cfg total).toNat
    let nu := (n_outer cfg total).toNat
    (genTier center cfg.CORE_JITTER nc noise k
       ++ genTier center cfg.MID_JITTER nm noise (k + 2 * nc)
       ++ genTier center cfg.OUTER_JITTER nu noise (k + 2 * nc + 2 * nm),
     k + 2 * nc + 2 * nm + 2 * nu)

/-- The generation loop of lines 151-175 over a suffix of the merged frame,
threading the stream position. -/
noncomputable def genList (cfg : SteamMapConfig) (batch : List CityRecord)
    (noise : ℕ → ℝ) : List CityRecord → ℕ → List (ℝ × ℝ)
  | [], _ => []
  | r :: rs, k =>
      (genRecord cfg (r.lat, r.lng) (num_points cfg batch r) noise k).1
        ++ genList cfg batch noise rs
            (genRecord cfg (r.lat, r.lng) (num_points cfg batch r) noise k).2

/-- All raw points of the batch, in draw order (lines 151-181). -/
noncomputable def genAll (cfg : SteamMapConfig) (batch : List CityRecord)
    (noise : ℕ → ℝ) : List (ℝ × ℝ) :=
  genList cfg batch noise (merged batch) 0

/-- True exactly on the error outcome of the pipeline. -/
def isErr : Except String (List (ℝ × ℝ)) → Bool
  | Except.error _ => true
  | Except.ok _ => false

/-- Length of the point list of a successful outcome, 0 on error. -/
def okLength : Except String (List (ℝ × ℝ)) → ℕ
  | Except.error _ => 0
  | Except.ok l => l.length

/-- Lines 146-190: the whole engine run.  `noise` is the seeded normal
stream; `shuffle` is the seeded permutation behind `points.sample`
(line 187), whose chosen prefix of length `MAX_TOTAL_POINTS` is the
downsampled output.  The run fails (line 178 `raise ValueError`) exactly
when no record appended any draws, i.e. when the raw point list is empty;
otherwise the raw list is downsampled only when it exceeds
`MAX_TOTAL_POINTS` (line 186). -/
noncomputable def pipeline (cfg : SteamMapConfig) (batch : List CityRecord)
    (noise : ℕ → ℝ) (shuffle : List (ℝ × ℝ) → List (ℝ × ℝ)) :
    Except String (List (ℝ × ℝ)) :=
  if (genAll cfg batch noise).isEmpty then
    Except.error ("No points generated, please check data or increase POINT_SCALE")
  else
    Except.ok (if cfg.MAX_TOTAL_POINTS < (genAll cfg batch noise).length then
        (shuffle (genAll cfg batch noise)).take cfg.MAX_TOTAL_POINTS
      else genAll cfg batch noise)

/-- The engine as a function of an integer seed: the seed selects the normal
stream and the downsampling permutation from the (deterministic) families
`noiseFam` and `shuffleFam`, as `np.random.seed` does for the process-wide
generator. -/
noncomputable def pipelineSeeded (noiseFam : ℕ → ℕ → ℝ)
    (shuffleFam : ℕ → List (ℝ × ℝ) → List (ℝ × ℝ)) (cfg : SteamMapConfig)
    (batch : List CityRecord) (seed : ℕ) : Except String (List (ℝ × ℝ)) :=
  pipeline cfg batch (noiseFam seed) (shuffleFam seed)

/-- A concrete all-zero draw stream, used to instantiate theorems. -/
noncomputable def noise0 : ℕ → ℝ := fun _ => 0

/-- Concrete record: city A of the spec's two-city scenario (country "ABC",
total traffic 100 TB, population 80 of the country's 100). -/
def cityA : CityRecord :=
  { iso3 := "ABC", lat := 10, lng := 20, population := 80, traffic_tb := FVal.fin 100 }

/-- Concrete record: city B of the spec's two-city scenario (population 20). -/
def cityB : CityRecord :=
  { iso3 := "ABC", lat := -5, lng := 30, population := 20, traffic_tb := FVal.fin 100 }

/-- The spec's two-city scenario batch. -/
def batchAB : List CityRecord := [cityA, cityB]

/-- Concrete record with positive traffic, used as the healthy record of the
malformed-record batch. -/
def cityGood : CityRecord :=
  { iso3 := "AAA", lat := 0, lng := 0, population := 1, traffic_tb := FVal.fin 1 }

/-- Concrete record whose computed city traffic is NaN. -/
def cityNan : CityRecord :=
  { iso3 := "BBB", lat := 0, lng := 0, population := 1, traffic_tb := FVal.nan }

/-- Concrete record with zero traffic. -/
def cityZero : CityRecord :=
  { iso3 := "CCC", lat := 1, lng := 1, population := 5, traffic_tb := FVal.fin 0 }

/-- Batch containing a malformed (NaN traffic) record next to a healthy one. -/
def batchBad : List CityRecord := [cityGood, cityNan]

/-- Batch with a positive-traffic record and a zero-traffic record. -/
def batchMixed : List CityRecord := [cityGood, cityZero]

/-- Base record for the monotonicity claim; its traffic field is replaced. -/
def cityVar : CityRecord :=
  { iso3 := "AAA", lat := 0, lng := 0, population := 1, traffic_tb := FVal.fin 0 }

/-- Replace a record's country traffic value by a finite rational. -/
def setT (c : CityRecord) (t : ℚ) : CityRecord :=
  { c with traffic_tb := FVal.fin t }

/-! ### Basic lemmas about the embedded operations -/

theorem log1p_zero : log1p 0 = 0 := by
  simp [log1p]

theorem log1p_nonneg {q : ℚ} (h : 0 ≤ q) : 0 ≤ log1p q := by
  apply Real.log_nonneg
  have : (0 : ℝ) ≤ (q : ℝ) := by exact_mod_cast h
  linarith

theorem log1p_pos {q : ℚ} (h : 0 < q) : 0 < log1p q := by
  apply Real.log_pos
  have : (0 : ℝ) < (q : ℝ) := by exact_mod_cast h
  linarith

theorem log1p_mono {a b : ℚ} (ha : 0 ≤ a) (h : a ≤ b) : log1p a ≤ log1p b := by
  have ha' : (0 : ℝ) ≤ (a : ℝ) := by exact_mod_cast ha
  have h' : (a : ℝ) ≤ (b : ℝ) := by exact_mod_cast h
  have h1 : (0 : ℝ) < 1 + (a : ℝ) := by linarith
  exact Real.log_le_log h1 (by linarith)

theorem foldr_max_nonneg (l : List ℝ) : 0 ≤ l.foldr max 0 := by
  induction l with
  | nil => simp
  | cons x xs ih => simpa using Or.inr ih

theorem le_foldr_max {l : List ℝ} {x : ℝ} (hx : x ∈ l) : x ≤ l.foldr max 0 := by
  induction l with
  | nil => cases hx
  | cons y ys ih =>
      rcases List.mem_cons.mp hx with h | h
      · subst h; exact le_max_left _ _
      · exact le_trans (ih h) (le_max_right _ _)

theorem foldr_max_le {l : List ℝ} {b : ℝ} (hb : 0 ≤ b) (h : ∀ x ∈ l, x ≤ b) :
    l.foldr max 0 ≤ b := by
  induction l with
  | nil => simpa using hb
  | cons x xs ih =>
      simp only [List.foldr_cons, max_le_iff]
      exact ⟨h x (List.mem_cons_self x xs), ih (fun y hy => h y (List.mem_cons_of_mem x hy))⟩

theorem foldr_max_init (l : List ℝ) (e : ℝ) (he : 0 ≤ e) :
    l.foldr max e = max (l.foldr max 0) e := by
  induction l with
  | nil => simp [max_eq_right he]
  | cons x xs ih => simp [ih, max_assoc]

theorem foldr_max_append (a b : List ℝ) :
    (a ++ b).foldr max 0 = max (a.foldr max 0) (b.foldr max 0) := by
  rw [List.foldr_append, foldr_max_init a _ (foldr_max_nonneg b), max_comm]

theorem genTier_length (center : ℚ × ℚ) (sigma : ℚ) (n : ℕ) (noise : ℕ → ℝ) (k : ℕ) :
    (genTier center sigma n noise k).length = n := by
  simp [genTier]

theorem genRecord_length (cfg : SteamMapConfig) (center : ℚ × ℚ) (total : ℕ)
    (noise : ℕ → ℝ) (k : ℕ) :
    (genRecord cfg center total noise k).1.length =
      if total = 0 then 0
      else (n_core cfg total).toNat + (n_mid cfg total).toNat + (n_outer cfg total).toNat := by
  by_cases h : total = 0
  · simp [genRecord, h]
  · simp [genRecord, h, genTier_length]
    omega

theorem genRecord_length_pos (cfg : SteamMapConfig) (center : ℚ × ℚ) {total : ℕ}
    (h : total ≠ 0) (noise : ℕ → ℝ) (k : ℕ) :
    0 < (genRecord cfg center total noise k).1.length := by
  rw [genRecord_length, if_neg h]
  by_contra hc
  push_neg at hc
  interval_cases hn : (n_core cfg total).toNat + (n_mid cfg total).toNat + (n_outer cfg total).toNat
  have h1 : n_core cfg total ≤ 0 := by
    have := Int.toNat_eq_zero.mp (by omega : (n_core cfg total).toNat = 0)
    exact this
  have h2 : n_mid cfg total ≤ 0 := by
    have := Int.toNat_eq_zero.mp (by omega : (n_mid cfg total).toNat = 0)
    exact this
  have h3 : n_outer cfg total ≤ 0 := by
    have := Int.toNat_eq_zero.mp (by omega : (n_outer cfg total).toNat = 0)
    exact this
  have : 0 < (total : ℤ) := by exact_mod_cast Nat.pos_of_ne_zero h
  simp only [n_outer] at h3
  omega

theorem genRecord_fst_eq_nil_iff (cfg : SteamMapConfig) (center : ℚ × ℚ) (total : ℕ)
    (noise : ℕ → ℝ) (k : ℕ) :
    (genRecord cfg center total noise k).1 = [] ↔ total = 0 := by
  constructor
  · intro h
    by_contra hc
    have := genRecord_length_pos cfg center hc noise k
    rw [h] at this
    simp at this
  · intro h; simp [genRecord, h]

theorem genList_eq_nil_iff (cfg : SteamMapConfig) (batch : List CityRecord)
    (noise : ℕ → ℝ) (l : List CityRecord) (k : ℕ) :
    genList cfg batch noise l k = [] ↔ ∀ r ∈ l, num_points cfg batch r = 0 := by
  induction l generalizing k with
  | nil => simp [genList]
  | cons r rs ih =>
      simp only [genList, List.append_eq_nil, List.mem_cons]
      rw [genRecord_fst_eq_nil_iff, ih]
      constructor
      · rintro ⟨h1, h2⟩ x hx
        rcases hx with hx | hx
        · subst hx; exact h1
        · exact h2 x hx
      · intro h
        exact ⟨h r (Or.inl rfl), fun x hx => h x (Or.inr hx)⟩

theorem pipeline_isErr_iff (cfg : SteamMapConfig) (batch : List CityRecord)
    (noise : ℕ → ℝ) (shuffle : List (ℝ × ℝ) → List (ℝ × ℝ)) :
    isErr (pipeline cfg batch noise shuffle) = true ↔
      ((merged batch).map (num_points cfg batch)).sum = 0 := by
  have hsum : ((merged batch).map (num_points cfg batch)).sum = 0 ↔
      ∀ r ∈ merged batch, num_points cfg batch r = 0 := by
    rw [List.sum_eq_zero_iff]
    constructor
    · intro h r hr; exact h _ (List.mem_map_of_mem _ hr)
    · intro h x hx
      rcases List.mem_map.mp hx with ⟨r, hr, rfl⟩
      exact h r hr
  have hiff : genAll cfg batch noise = [] ↔ ∀ r ∈ merged batch, num_points cfg batch r = 0 :=
    genList_eq_nil_iff cfg batch noise (merged batch) 0
  rw [hsum, ← hiff]
  unfold pipeline
  by_cases h : genAll cfg batch noise = []
  · simp [List.isEmpty_iff, h, isErr]
  · simp [List.isEmpty_iff, h, isErr]

theorem mem_prepBatch_iff (batch : List CityRecord) (r : CityRecord) :
    r ∈ prepBatch batch ↔ r ∈ batch ∧ validRecord r = true := by
  simp [prepBatch, List.mem_filter]

theorem mem_merged_iff (batch : List CityRecord) (r : CityRecord) :
    r ∈ merged batch ↔
      r ∈ prepBatch batch ∧ 0 < country_pop (prepBatch batch) r.iso3 := by
  simp [merged, List.mem_filter]

theorem population_pos_of_valid {r : CityRecord} (h : validRecord r = true) :
    0 < r.population := by
  simp only [validRecord, Bool.and_eq_true, decide_eq_true_eq] at h
  exact h.1.1.1.1

theorem country_pop_nonneg (batch : List CityRecord) (c : String) :
    0 ≤ country_pop (prepBatch batch) c := by
  apply List.sum_nonneg
  intro x hx
  rcases List.mem_map.mp hx with ⟨r, hr, rfl⟩
  have hr' : r ∈ prepBatch batch := List.mem_of_mem_filter hr
  exact le_of_lt (population_pos_of_valid ((mem_prepBatch_iff batch r).mp hr').2)

theorem pop_weight_nonneg {batch : List CityRecord} {r : CityRecord}
    (hpop : 0 ≤ r.population) : 0 ≤ pop_weight (prepBatch batch) r :=
  div_nonneg hpop (country_pop_nonneg batch r.iso3)

theorem city_traffic_nonneg_of_fin {batch : List CityRecord} {r : CityRecord}
    {t : ℚ} (ht : r.traffic_tb = FVal.fin t) (h0 : 0 ≤ t) (hpop : 0 ≤ r.population) :
    0 ≤ city_traffic_tb batch r := by
  simp only [city_traffic_tb, ht, FVal.mulPos, FVal.cleaned]
  exact mul_nonneg h0 (pop_weight_nonneg hpop)

theorem max_log_nonneg (batch : List CityRecord) : 0 ≤ max_log batch :=
  foldr_max_nonneg _

theorem city_traffic_log_le_max_log {batch : List CityRecord} {r : CityRecord}
    (hr : r ∈ merged batch) : city_traffic_log batch r ≤ max_log batch :=
  le_foldr_max (List.mem_map_of_mem _ hr)

theorem budgetOfNorm_le_cap (cfg : SteamMapConfig) (x : ℝ) :
    budgetOfNorm cfg x ≤ cfg.MAX_POINTS_PER_CITY := by
  simp only [budgetOfNorm]
  exact min_le_right _ _

theorem budgetOfNorm_zero (cfg : SteamMapConfig) : budgetOfNorm cfg 0 = 0 := by
  simp [budgetOfNorm]

theorem budgetOfNorm_pos (cfg : SteamMapConfig) {x : ℝ} (hx : 0 < x)
    (hcap : 1 ≤ cfg.MAX_POINTS_PER_CITY) : 1 ≤ budgetOfNorm cfg x := by
  simp only [budgetOfNorm]
  apply le_min _ hcap
  by_cases hraw : (⌊max 0 (x * (cfg.POINT_SCALE : ℝ))⌋).toNat = 0
  · rw [if_pos ⟨hraw, hx⟩]
  · rw [if_neg (by tauto)]
    omega

theorem budgetOfNorm_mono (cfg : SteamMapConfig) (hs : 0 ≤ cfg.POINT_SCALE)
    {x y : ℝ} (hxy : x ≤ y) : budgetOfNorm cfg x ≤ budgetOfNorm cfg y := by
  have hs' : (0 : ℝ) ≤ (cfg.POINT_SCALE : ℝ) := by exact_mod_cast hs
  have hraw : (⌊max 0 (x * (cfg.POINT_SCALE : ℝ))⌋).toNat ≤
      (⌊max 0 (y * (cfg.POINT_SCALE : ℝ))⌋).toNat := by
    apply Int.toNat_le_toNat
    apply Int.floor_le_floor
    exact max_le_max le_rfl (mul_le_mul_of_nonneg_right hxy hs')
  simp only [budgetOfNorm]
  apply min_le_min _ le_rfl
  by_cases hx0 : (⌊max 0 (x * (cfg.POINT_SCALE : ℝ))⌋).toNat = 0 ∧ 0 < x
  · rw [if_pos hx0]
    by_cases hy0 : (⌊max 0 (y * (cfg.POINT_SCALE : ℝ))⌋).toNat = 0 ∧ 0 < y
    · rw [if_pos hy0]
    · rw [if_neg hy0]
      have hy : 0 < y := lt_of_lt_of_le hx0.2 hxy
      have : (⌊max 0 (y * (cfg.POINT_SCALE : ℝ))⌋).toNat ≠ 0 := by tauto
      omega
  · rw [if_neg hx0]
    by_cases hy0 : (⌊max 0 (y * (cfg.POINT_SCALE : ℝ))⌋).toNat = 0 ∧ 0 < y
    · rw [if_pos hy0]
      omega
    · rw [if_neg hy0]
      exact hraw

theorem norm_zero_of_traffic_zero (batch : List CityRecord) (r : CityRecord)
    (h : city_traffic_tb batch r = 0) : normalized_density batch r = 0 := by
  have hlog : city_traffic_log batch r = 0 := by
    rw [city_traffic_log, h, log1p_zero]
  unfold normalized_density
  rw [hlog]
  split <;> simp

theorem norm_pos_of_traffic_pos {batch : List CityRecord} {r : CityRecord}
    (hr : r ∈ merged batch) (h : 0 < city_traffic_tb batch r) :
    0 < normalized_density batch r := by
  have hlog : 0 < city_traffic_log batch r := log1p_pos h
  have hm : 0 < max_log batch := lt_of_lt_of_le hlog (city_traffic_log_le_max_log hr)
  unfold normalized_density
  rw [if_pos hm]
  exact div_pos hlog hm

theorem num_points_of_traffic_zero (cfg : SteamMapConfig) (batch : List CityRecord)
    (r : CityRecord) (h : city_traffic_tb batch r = 0) : num_points cfg batch r = 0 := by
  rw [num_points, norm_zero_of_traffic_zero batch r h, budgetOfNorm_zero]

theorem city_traffic_tb_of_nonfinite (batch : List CityRecord) (r : CityRecord)
    (h : r.traffic_tb.isFinite = false) : city_traffic_tb batch r = 0 := by
  cases ht : r.traffic_tb <;>
    simp [city_traffic_tb, FVal.mulPos, FVal.cleaned, ht, FVal.isFinite] at h ⊢

theorem max_log_eq_of_max {batch : List CityRecord} {r : CityRecord}
    (hnn : ∀ x ∈ merged batch, 0 ≤ city_traffic_tb batch x)
    (hr : r ∈ merged batch)
    (hmax : ∀ x ∈ merged batch, city_traffic_tb batch x ≤ city_traffic_tb batch r) :
    max_log batch = city_traffic_log batch r := by
  apply le_antisymm
  · apply foldr_max_le (log1p_nonneg (hnn r hr))
    intro x hx
    rcases List.mem_map.mp hx with ⟨y, hy, rfl⟩
    exact log1p_mono (hnn y hy) (hmax y hy)
  · exact city_traffic_log_le_max_log hr

theorem norm_one_of_max {batch : List CityRecord} {r : CityRecord}
    (hnn : ∀ x ∈ merged batch, 0 ≤ city_traffic_tb batch x)
    (hr : r ∈ merged batch) (hpos : 0 < city_traffic_tb batch r)
    (hmax : ∀ x ∈ merged batch, city_traffic_tb batch x ≤ city_traffic_tb batch r) :
    normalized_density batch r = 1 := by
  have hml : max_log batch = city_traffic_log batch r := max_log_eq_of_max hnn hr hmax
  have hlog : 0 < city_traffic_log batch r := log1p_pos hpos
  unfold normalized_density
  rw [hml, if_pos hlog, div_self (ne_of_gt hlog)]

theorem budgetOfNorm_one (cfg : SteamMapConfig) (h1 : 1 ≤ cfg.POINT_SCALE)
    (h2 : cfg.POINT_SCALE ≤ (cfg.MAX_POINTS_PER_CITY : ℚ)) :
    budgetOfNorm cfg 1 = (⌊cfg.POINT_SCALE⌋).toNat := by
  have hs : (0 : ℝ) ≤ (cfg.POINT_SCALE : ℝ) := by
    have : (0 : ℚ) ≤ cfg.POINT_SCALE := by linarith
    exact_mod_cast this
  have hraw : (⌊max 0 ((1 : ℝ) * (cfg.POINT_SCALE : ℝ))⌋).toNat = (⌊cfg.POINT_SCALE⌋).toNat := by
    rw [one_mul, max_eq_right hs, Rat.floor_cast]
  have hfl : 1 ≤ ⌊cfg.POINT_SCALE⌋ := by
    rw [Int.le_floor]
    exact_mod_cast h1
  simp only [budgetOfNorm, hraw]
  rw [if_neg (by omega)]
  apply min_eq_left
  rw [Int.toNat_le]
  calc ⌊cfg.POINT_SCALE⌋ ≤ ⌊(cfg.MAX_POINTS_PER_CITY : ℚ)⌋ := Int.floor_le_floor h2
    _ = cfg.MAX_POINTS_PER_CITY := Int.floor_natCast _

theorem num_points_max_record (cfg : SteamMapConfig) {batch : List CityRecord}
    {r : CityRecord}
    (hnn : ∀ x ∈ merged batch, 0 ≤ city_traffic_tb batch x)
    (hr : r ∈ merged batch) (hpos : 0 < city_traffic_tb batch r)
    (hmax : ∀ x ∈ merged batch, city_traffic_tb batch x ≤ city_traffic_tb batch r)
    (h1 : 1 ≤ cfg.POINT_SCALE) (h2 : cfg.POINT_SCALE ≤ (cfg.MAX_POINTS_PER_CITY : ℚ)) :
    num_points cfg batch r = (⌊cfg.POINT_SCALE⌋).toNat := by
  rw [num_points, norm_one_of_max hnn hr hpos hmax, budgetOfNorm_one cfg h1 h2]

/-! ### Claim theorems -/

/-- C1: for a fixed input batch, fixed configuration and fixed random seed,
two invocations of the point-cloud generation pipeline produce identical
output point sequences (same count, same coordinates, same draw order). -/
theorem claim_C1_determinism (noiseFam : ℕ → ℕ → ℝ)
    (shuffleFam : ℕ → List (ℝ × ℝ) → List (ℝ × ℝ)) (cfg : SteamMapConfig)
    (batch : List CityRecord) (s t : ℕ) (h : s = t) :
    pipelineSeeded noiseFam shuffleFam cfg batch s =
      pipelineSeeded noiseFam shuffleFam cfg batch t := by
  rw [h]

/-- Witness for C1 at the source's seed 42 on the concrete two-city batch. -/
theorem claim_C1_witness :
    (42 : ℕ) = 42 ∧
      pipelineSeeded (fun _ _ => 0) (fun _ => id) config batchAB 42 =
        pipelineSeeded (fun _ _ => 0) (fun _ => id) config batchAB 42 :=
  ⟨rfl, claim_C1_determinism (fun _ _ => 0) (fun _ => id) config batchAB 42 42 rfl⟩

/-- C2: for every record and every non-negative integer point budget, the
tier partition `n_core = floor(total * core)`, `n_mid = floor(total * mid)`,
`n_outer = total - n_core - n_mid` sums exactly to the budget with all three
counts non-negative, for all valid tier fractions (non-negative, summing
to 1). -/
theorem claim_C2_budget_conservation (cfg : SteamMapConfig) (total : ℕ)
    (hc : 0 ≤ cfg.CORE_FRAC) (hm : 0 ≤ cfg.MID_FRAC) (ho : 0 ≤ cfg.OUTER_FRAC)
    (hsum : cfg.CORE_FRAC + cfg.MID_FRAC + cfg.OUTER_FRAC = 1) :
    n_core cfg total + n_mid cfg total + n_outer cfg total = total
      ∧ n_core cfg total = ⌊(total : ℚ) * cfg.CORE_FRAC⌋
      ∧ n_mid cfg total = ⌊(total : ℚ) * cfg.MID_FRAC⌋
      ∧ 0 ≤ n_core cfg total ∧ 0 ≤ n_mid cfg total ∧ 0 ≤ n_outer cfg total := by
  have ht : (0 : ℚ) ≤ (total : ℚ) := by positivity
  have hqc : (0 : ℚ) ≤ (total : ℚ) * cfg.CORE_FRAC := mul_nonneg ht hc
  have hqm : (0 : ℚ) ≤ (total : ℚ) * cfg.MID_FRAC := mul_nonneg ht hm
  have hnc : n_core cfg total = ⌊(total : ℚ) * cfg.CORE_FRAC⌋ := by
    unfold n_core int_trunc
    rw [if_neg (not_lt.mpr hqc)]
  have hnm : n_mid cfg total = ⌊(total : ℚ) * cfg.MID_FRAC⌋ := by
    unfold n_mid int_trunc
    rw [if_neg (not_lt.mpr hqm)]
  have hfc : 0 ≤ n_core cfg total := by rw [hnc]; exact Int.floor_nonneg.mpr hqc
  have hfm : 0 ≤ n_mid cfg total := by rw [hnm]; exact Int.floor_nonneg.mpr hqm
  have hle : n_core cfg total + n_mid cfg total ≤ (total : ℤ) := by
    have k1 : (⌊(total : ℚ) * cfg.CORE_FRAC⌋ : ℚ) ≤ (total : ℚ) * cfg.CORE_FRAC :=
      Int.floor_le _
    have k2 : (⌊(total : ℚ) * cfg.MID_FRAC⌋ : ℚ) ≤ (total : ℚ) * cfg.MID_FRAC :=
      Int.floor_le _
    have k3 : (total : ℚ) * cfg.CORE_FRAC + (total : ℚ) * cfg.MID_FRAC ≤ (total : ℚ) := by
      have hcm : cfg.CORE_FRAC + cfg.MID_FRAC ≤ 1 := by linarith
      calc (total : ℚ) * cfg.CORE_FRAC + (total : ℚ) * cfg.MID_FRAC
          = (total : ℚ) * (cfg.CORE_FRAC + cfg.MID_FRAC) := by ring
        _ ≤ (total : ℚ) * 1 := mul_le_mul_of_nonneg_left hcm ht
        _ = (total : ℚ) := mul_one _
    have : ((n_core cfg total + n_mid cfg total : ℤ) : ℚ) ≤ ((total : ℤ) : ℚ) := by
      rw [hnc, hnm]
      push_cast
      push_cast at k1 k2
      linarith
    exact_mod_cast this
  refine ⟨by unfold n_outer; ring, hnc, hnm, hfc, hfm, ?_⟩
  unfold n_outer
  omega

/-- Witness for C2 at the default configuration and budget 7
(n_core = 2, n_mid = 2, n_outer = 3). -/
theorem claim_C2_witness :
    (0 ≤ config.CORE_FRAC ∧ 0 ≤ config.MID_FRAC ∧ 0 ≤ config.OUTER_FRAC ∧
      config.CORE_FRAC + config.MID_FRAC + config.OUTER_FRAC = 1) ∧
    (n_core config 7 + n_mid config 7 + n_outer config 7 = 7 ∧
      0 ≤ n_outer config 7) ∧
    (n_core config 7 = 2 ∧ n_mid config 7 = 2 ∧ n_outer config 7 = 3) := by
  have h := claim_C2_budget_conservation config 7 (by norm_num [config])
    (by norm_num [config]) (by norm_num [config]) (by norm_num [config])
  refine ⟨⟨by norm_num [config], by norm_num [config], by norm_num [config],
    by norm_num [config]⟩, ⟨h.1, h.2.2.2.2.2⟩, ?_, ?_, ?_⟩ <;>
    norm_num [n_core, n_mid, n_outer, int_trunc, config]

/-- C3: every record's point budget is at most `MAX_POINTS_PER_CITY`, and the
length of a successful pipeline output is at most `MAX_TOTAL_POINTS`. -/
theorem claim_C3_caps (cfg : SteamMapConfig) (batch : List CityRecord)
    (noise : ℕ → ℝ) (shuffle : List (ℝ × ℝ) → List (ℝ × ℝ))
    (l : List CityRecord) (r : CityRecord) :
    num_points cfg l r ≤ cfg.MAX_POINTS_PER_CITY ∧
      okLength (pipeline cfg batch noise shuffle) ≤ cfg.MAX_TOTAL_POINTS := by
  refine ⟨budgetOfNorm_le_cap cfg _, ?_⟩
  unfold pipeline
  split_ifs with h1 h2
  · simp [okLength]
  · simp only [okLength, List.length_take]
    exact min_le_left _ _
  · simp only [okLength]
    omega

/-- C7: the pipeline fails (with the source's ValueError message, the spec's
`EmptyResultError`) exactly when the whole batch yields zero points in
total; the error is returned to the caller rather than an empty point
set. -/
theorem claim_C7_empty_result (cfg : SteamMapConfig) (batch : List CityRecord)
    (noise : ℕ → ℝ) (shuffle : List (ℝ × ℝ) → List (ℝ × ℝ)) :
    pipeline cfg batch noise shuffle =
        Except.error ("No points generated, please check data or increase POINT_SCALE")
      ↔ ((merged batch).map (num_points cfg batch)).sum = 0 := by
  have hiff := pipeline_isErr_iff cfg batch noise shuffle
  constructor
  · intro h
    apply hiff.mp
    rw [h]
    rfl
  · intro h
    have herr := hiff.mpr h
    revert herr
    unfold pipeline
    split_ifs with h1 h2 <;> intro herr
    · rfl
    · simp [isErr] at herr
    · simp [isErr] at herr

/-- Witness for C7: the empty batch produces the error. -/
theorem claim_C7_witness :
    pipeline config [] noise0 id =
      Except.error ("No points generated, please check data or increase POINT_SCALE") :=
  (claim_C7_empty_result config [] noise0 id).mpr rfl

/-- C10: a record whose computed city traffic is non-finite is coerced to 0
before the log transform, so it contributes exactly 0 points and no error is
raised on its account. -/
theorem claim_C10_nonfinite_coerced (cfg : SteamMapConfig) (batch : List CityRecord)
    (r : CityRecord) (noise : ℕ → ℝ) (k : ℕ)
    (h : r.traffic_tb.isFinite = false) :
    city_traffic_tb batch r = 0 ∧ num_points cfg batch r = 0 ∧
      (genRecord cfg (r.lat, r.lng) (num_points cfg batch r) noise k).1 = [] := by
  have h0 := city_traffic_tb_of_nonfinite batch r h
  have h1 := num_points_of_traffic_zero cfg batch r h0
  exact ⟨h0, h1, by rw [h1]; simp [genRecord]⟩

/-- Witness for C10 at the concrete NaN record. -/
theorem claim_C10_witness :
    cityNan.traffic_tb.isFinite = false ∧
      city_traffic_tb batchBad cityNan = 0 ∧ num_points config batchBad cityNan = 0 :=
  ⟨rfl, (claim_C10_nonfinite_coerced config batchBad cityNan noise0 0 rfl).1,
    (claim_C10_nonfinite_coerced config batchBad cityNan noise0 0 rfl).2.1⟩

/-! ### Concrete evaluations used by witnesses -/

theorem merged_batchAB : merged batchAB = [cityA, cityB] := by
  norm_num [merged, prepBatch, validRecord, country_pop, batchAB, cityA, cityB, List.filter]

theorem city_traffic_batchAB_A : city_traffic_tb batchAB cityA = 80 := by
  norm_num [city_traffic_tb, pop_weight, country_pop, prepBatch, validRecord,
    batchAB, cityA, cityB, FVal.mulPos, FVal.cleaned, List.filter]

theorem city_traffic_batchAB_B : city_traffic_tb batchAB cityB = 20 := by
  norm_num [city_traffic_tb, pop_weight, country_pop, prepBatch, validRecord,
    batchAB, cityA, cityB, FVal.mulPos, FVal.cleaned, List.filter]

theorem merged_batchBad : merged batchBad = [cityGood, cityNan] := by
  norm_num +decide [merged, prepBatch, validRecord, country_pop, batchBad, cityGood, cityNan,
    List.filter]

theorem city_traffic_batchBad_good : city_traffic_tb batchBad cityGood = 1 := by
  norm_num +decide [city_traffic_tb, pop_weight, country_pop, prepBatch, validRecord,
    batchBad, cityGood, cityNan, FVal.mulPos, FVal.cleaned, List.filter]

theorem merged_batchMixed : merged batchMixed = [cityGood, cityZero] := by
  norm_num +decide [merged, prepBatch, validRecord, country_pop, batchMixed, cityGood, cityZero,
    List.filter]

theorem city_traffic_batchMixed_good : city_traffic_tb batchMixed cityGood = 1 := by
  norm_num +decide [city_traffic_tb, pop_weight, country_pop, prepBatch, validRecord,
    batchMixed, cityGood, cityZero, FVal.mulPos, FVal.cleaned, List.filter]

theorem city_traffic_batchMixed_zero : city_traffic_tb batchMixed cityZero = 0 := by
  norm_num +decide [city_traffic_tb, pop_weight, country_pop, prepBatch, validRecord,
    batchMixed, cityGood, cityZero, FVal.mulPos, FVal.cleaned, List.filter]

theorem floor_scale_eq : (⌊config.POINT_SCALE⌋).toNat = 200 := by
  have h : (config.POINT_SCALE : ℚ) = ((200 : ℤ) : ℚ) := by norm_num [config]
  rw [h, Int.floor_intCast]
  rfl

theorem num_points_cityGood : num_points config batchBad cityGood = 200 := by
  have hnn : ∀ x ∈ merged batchBad, 0 ≤ city_traffic_tb batchBad x := by
    intro x hx
    rw [merged_batchBad] at hx
    simp only [List.mem_cons, List.not_mem_nil, or_false] at hx
    rcases hx with rfl | rfl
    · rw [city_traffic_batchBad_good]; norm_num
    · rw [city_traffic_tb_of_nonfinite batchBad cityNan rfl]
  have hr : cityGood ∈ merged batchBad := by rw [merged_batchBad]; simp
  have hpos : 0 < city_traffic_tb batchBad cityGood := by
    rw [city_traffic_batchBad_good]; norm_num
  have hmax : ∀ x ∈ merged batchBad, city_traffic_tb batchBad x ≤
      city_traffic_tb batchBad cityGood := by
    intro x hx
    rw [merged_batchBad] at hx
    simp only [List.mem_cons, List.not_mem_nil, or_false] at hx
    rcases hx with rfl | rfl
    · exact le_refl _
    · rw [city_traffic_tb_of_nonfinite batchBad cityNan rfl,
        city_traffic_batchBad_good]
      norm_num
  have h := num_points_max_record config hnn hr hpos hmax
    (by norm_num [config]) (by norm_num [config])
  rw [h, floor_scale_eq]

theorem num_points_cityA : num_points config batchAB cityA = 200 := by
  have hnn : ∀ x ∈ merged batchAB, 0 ≤ city_traffic_tb batchAB x := by
    intro x hx
    rw [merged_batchAB] at hx
    simp only [List.mem_cons, List.not_mem_nil, or_false] at hx
    rcases hx with rfl | rfl
    · rw [city_traffic_batchAB_A]; norm_num
    · rw [city_traffic_batchAB_B]; norm_num
  have hr : cityA ∈ merged batchAB := by rw [merged_batchAB]; simp
  have hpos : 0 < city_traffic_tb batchAB cityA := by
    rw [city_traffic_batchAB_A]; norm_num
  have hmax : ∀ x ∈ merged batchAB, city_traffic_tb batchAB x ≤
      city_traffic_tb batchAB cityA := by
    intro x hx
    rw [merged_batchAB] at hx
    simp only [List.mem_cons, List.not_mem_nil, or_false] at hx
    rcases hx with rfl | rfl
    · exact le_refl _
    · rw [city_traffic_batchAB_B, city_traffic_batchAB_A]; norm_num
  have h := num_points_max_record config hnn hr hpos hmax
    (by norm_num [config]) (by norm_num [config])
  rw [h, floor_scale_eq]

theorem int_trunc_eq_zero {q : ℚ} (h0 : 0 ≤ q) (h1 : q < 1) : int_trunc q = 0 := by
  unfold int_trunc
  rw [if_neg (not_lt.mpr h0), Int.floor_eq_zero_iff]
  exact ⟨h0, h1⟩

/-- C4: a record contributes sample points if and only if its city traffic is
strictly positive: zero traffic contributes exactly 0 points, and positive
traffic whose floored budget is 0 still contributes exactly 1 point (via the
minimum-one rule, with a per-city cap of at least 1 and tier fractions below
1 as in the default configuration). -/
theorem claim_C4_zero_and_min_one (cfg : SteamMapConfig) (batch : List CityRecord)
    (r : CityRecord) (noise : ℕ → ℝ) (k : ℕ)
    (hr : r ∈ merged batch) (hnn : 0 ≤ city_traffic_tb batch r)
    (hcap : 1 ≤ cfg.MAX_POINTS_PER_CITY)
    (hc0 : 0 ≤ cfg.CORE_FRAC) (hc1 : cfg.CORE_FRAC < 1)
    (hm0 : 0 ≤ cfg.MID_FRAC) (hm1 : cfg.MID_FRAC < 1) :
    (0 < city_traffic_tb batch r ↔
        0 < (genRecord cfg (r.lat, r.lng) (num_points cfg batch r) noise k).1.length)
    ∧ (city_traffic_tb batch r = 0 →
        (genRecord cfg (r.lat, r.lng) (num_points cfg batch r) noise k).1.length = 0)
    ∧ (0 < city_traffic_tb batch r →
        (⌊max 0 (normalized_density batch r * (cfg.POINT_SCALE : ℝ))⌋).toNat = 0 →
        (genRecord cfg (r.lat, r.lng) (num_points cfg batch r) noise k).1.length = 1) := by
  have hzero : city_traffic_tb batch r = 0 →
      (genRecord cfg (r.lat, r.lng) (num_points cfg batch r) noise k).1.length = 0 := by
    intro h
    rw [num_points_of_traffic_zero cfg batch r h]
    simp [genRecord]
  refine ⟨⟨?_, ?_⟩, hzero, ?_⟩
  · intro hpos
    have hnp : 1 ≤ num_points cfg batch r :=
      budgetOfNorm_pos cfg (norm_pos_of_traffic_pos hr hpos) hcap
    exact genRecord_length_pos cfg (r.lat, r.lng) (by omega) noise k
  · intro hlen
    by_contra hpos
    have h0 : city_traffic_tb batch r = 0 := le_antisymm (not_lt.mp hpos) hnn
    rw [hzero h0] at hlen
    exact lt_irrefl 0 hlen
  · intro hpos hraw
    have hnorm : 0 < normalized_density batch r := norm_pos_of_traffic_pos hr hpos
    have hnp : num_points cfg batch r = 1 := by
      simp only [num_points, budgetOfNorm]
      rw [if_pos ⟨hraw, hnorm⟩]
      exact min_eq_left hcap
    rw [hnp, genRecord_length cfg (r.lat, r.lng) 1 noise k, if_neg one_ne_zero]
    have hcz : n_core cfg 1 = 0 := by
      unfold n_core
      apply int_trunc_eq_zero
      · simpa using hc0
      · simpa using hc1
    have hmz : n_mid cfg 1 = 0 := by
      unfold n_mid
      apply int_trunc_eq_zero
      · simpa using hm0
      · simpa using hm1
    have hoz : n_outer cfg 1 = 1 := by
      unfold n_outer
      rw [hcz, hmz]
      simp
    rw [hcz, hmz, hoz]
    rfl

/-- Witness for C4: on the concrete mixed batch the zero-traffic record
contributes 0 points. -/
theorem claim_C4_witness :
    city_traffic_tb batchMixed cityZero = 0 ∧
      (genRecord config (cityZero.lat, cityZero.lng)
        (num_points config batchMixed cityZero) noise0 0).1.length = 0 := by
  have h := claim_C4_zero_and_min_one config batchMixed cityZero noise0 0
    (by rw [merged_batchMixed]; simp)
    (by simp [city_traffic_batchMixed_zero])
    (by norm_num [config]) (by norm_num [config]) (by norm_num [config])
    (by norm_num [config]) (by norm_num [config])
  exact ⟨city_traffic_batchMixed_zero, h.2.1 city_traffic_batchMixed_zero⟩

/-- C5: in a batch with at least one positive-traffic record (and, as the
data model requires, non-negative city traffic), every record's normalized
density lies in [0,1], the record of maximal city traffic has normalized
density exactly 1, and that record receives point budget
`floor(POINT_SCALE)` whenever `1 ≤ POINT_SCALE ≤ MAX_POINTS_PER_CITY`. -/
theorem claim_C5_normalization (cfg : SteamMapConfig) (batch : List CityRecord)
    (r : CityRecord)
    (hnn : ∀ x ∈ merged batch, 0 ≤ city_traffic_tb batch x)
    (hr : r ∈ merged batch) (hpos : 0 < city_traffic_tb batch r)
    (hmax : ∀ x ∈ merged batch, city_traffic_tb batch x ≤ city_traffic_tb batch r)
    (h1 : 1 ≤ cfg.POINT_SCALE) (h2 : cfg.POINT_SCALE ≤ (cfg.MAX_POINTS_PER_CITY : ℚ)) :
    (∀ x ∈ merged batch,
        0 ≤ normalized_density batch x ∧ normalized_density batch x ≤ 1)
    ∧ normalized_density batch r = 1
    ∧ num_points cfg batch r = (⌊cfg.POINT_SCALE⌋).toNat := by
  have hml : 0 < max_log batch :=
    lt_of_lt_of_le (log1p_pos hpos) (city_traffic_log_le_max_log hr)
  refine ⟨?_, norm_one_of_max hnn hr hpos hmax,
    num_points_max_record cfg hnn hr hpos hmax h1 h2⟩
  intro x hx
  unfold normalized_density
  rw [if_pos hml]
  constructor
  · exact div_nonneg (log1p_nonneg (hnn x hx)) (le_of_lt hml)
  · rw [div_le_one hml]
    exact city_traffic_log_le_max_log hx

/-- Witness for C5 on the spec's two-city scenario: traffic shares 80 and
20 TB, the larger record normalizes to 1 and receives budget 200. -/
theorem claim_C5_witness :
    city_traffic_tb batchAB cityA = 80 ∧ city_traffic_tb batchAB cityB = 20 ∧
      normalized_density batchAB cityA = 1 ∧ num_points config batchAB cityA = 200 := by
  have hnn : ∀ x ∈ merged batchAB, 0 ≤ city_traffic_tb batchAB x := by
    intro x hx
    rw [merged_batchAB] at hx
    simp only [List.mem_cons, List.not_mem_nil, or_false] at hx
    rcases hx with rfl | rfl
    · rw [city_traffic_batchAB_A]; norm_num
    · rw [city_traffic_batchAB_B]; norm_num
  have hr : cityA ∈ merged batchAB := by rw [merged_batchAB]; simp
  have hpos : 0 < city_traffic_tb batchAB cityA := by
    rw [city_traffic_batchAB_A]; norm_num
  have hmax : ∀ x ∈ merged batchAB, city_traffic_tb batchAB x ≤
      city_traffic_tb batchAB cityA := by
    intro x hx
    rw [merged_batchAB] at hx
    simp only [List.mem_cons, List.not_mem_nil, or_false] at hx
    rcases hx with rfl | rfl
    · exact le_refl _
    · rw [city_traffic_batchAB_B, city_traffic_batchAB_A]; norm_num
  have h := claim_C5_normalization config batchAB cityA hnn hr hpos hmax
    (by norm_num [config]) (by norm_num [config])
  exact ⟨city_traffic_batchAB_A, city_traffic_batchAB_B, h.2.1,
    by rw [h.2.2, floor_scale_eq]⟩

theorem sum_map_div (l : List CityRecord) (d : ℚ) :
    (l.map (fun r => r.population / d)).sum = (l.map (fun r => r.population)).sum / d := by
  induction l with
  | nil => simp
  | cons x xs ih => simp [ih, add_div]

/-- C6: for every country with positive total population, the population
weights of its records sum to exactly 1; records of a country with
non-positive total population are dropped from the merged frame. -/
theorem claim_C6_weights (batch : List CityRecord) (c : String) :
    (0 < country_pop (prepBatch batch) c →
      (((merged batch).filter (fun r => decide (r.iso3 = c))).map
          (pop_weight (prepBatch batch))).sum = 1)
    ∧ (∀ r : CityRecord, r ∈ merged batch ↔
        r ∈ prepBatch batch ∧ 0 < country_pop (prepBatch batch) r.iso3) := by
  refine ⟨?_, fun r => mem_merged_iff batch r⟩
  intro hc
  have hfil : (merged batch).filter (fun r => decide (r.iso3 = c)) =
      (prepBatch batch).filter (fun r => decide (r.iso3 = c)) := by
    rw [merged, List.filter_filter]
    apply List.filter_congr
    intro x hx
    by_cases hq : x.iso3 = c
    · simp [hq, hc]
    · simp [hq]
  have hmap : ((prepBatch batch).filter (fun r => decide (r.iso3 = c))).map
      (pop_weight (prepBatch batch)) =
      ((prepBatch batch).filter (fun r => decide (r.iso3 = c))).map
      (fun r => r.population / country_pop (prepBatch batch) c) := by
    apply List.map_congr_left
    intro x hx
    have hxc : x.iso3 = c := by
      have := (List.mem_filter.mp hx).2
      simpa using this
    rw [pop_weight, hxc]
  rw [hfil, hmap, sum_map_div]
  exact div_self (ne_of_gt hc)

/-- Witness for C6 on the spec's two-city scenario (country "ABC",
populations 80 and 20: weights 0.8 and 0.2 summing to 1). -/
theorem claim_C6_witness :
    0 < country_pop (prepBatch batchAB) "ABC" ∧
      (((merged batchAB).filter (fun r => decide (r.iso3 = "ABC"))).map
          (pop_weight (prepBatch batchAB))).sum = 1 := by
  have hc : 0 < country_pop (prepBatch batchAB) "ABC" := by
    norm_num [country_pop, prepBatch, validRecord, batchAB, cityA, cityB, List.filter]
  exact ⟨hc, (claim_C6_weights batchAB ("ABC" : String)).1 hc⟩

/-- Counterexample for C9: on a batch containing a malformed record (NaN
city traffic), the engine raises no error at all — the run succeeds, rather
than failing with the spec's `InvalidRecordError`. -/
theorem claim_C9_counterexample :
    cityNan.traffic_tb.isFinite = false ∧
      isErr (pipeline config batchBad noise0 id) = false := by
  refine ⟨rfl, ?_⟩
  have hiff := pipeline_isErr_iff config batchBad noise0 id
  have hsum : ((merged batchBad).map (num_points config batchBad)).sum ≠ 0 := by
    rw [merged_batchBad]
    simp [num_points_cityGood]
  cases h : isErr (pipeline config batchBad noise0 id)
  · rfl
  · exact absurd (hiff.mp h) hsum

/-- C9 (amended): the engine raises no record-level error on a malformed
(non-finite traffic) record: the record is silently coerced to a zero point
budget, and the run succeeds whenever some other record has a positive
budget. -/
theorem claim_C9_no_invalid_record_error (cfg : SteamMapConfig)
    (batch : List CityRecord) (noise : ℕ → ℝ)
    (shuffle : List (ℝ × ℝ) → List (ℝ × ℝ)) (r x : CityRecord)
    (hr : r ∈ merged batch) (hbad : r.traffic_tb.isFinite = false)
    (hx : x ∈ merged batch) (hxp : 0 < num_points cfg batch x) :
    num_points cfg batch r = 0 ∧ isErr (pipeline cfg batch noise shuffle) = false := by
  refine ⟨num_points_of_traffic_zero cfg batch r
    (city_traffic_tb_of_nonfinite batch r hbad), ?_⟩
  have hiff := pipeline_isErr_iff cfg batch noise shuffle
  have hsum : ((merged batch).map (num_points cfg batch)).sum ≠ 0 := by
    intro h0
    have hall := List.sum_eq_zero_iff.mp h0
    have := hall (num_points cfg batch x) (List.mem_map_of_mem _ hx)
    omega
  cases h : isErr (pipeline cfg batch noise shuffle)
  · rfl
  · exact absurd (hiff.mp h) hsum

/-- Witness for the amended C9 on the concrete batch with a NaN record next
to a healthy record. -/
theorem claim_C9_witness :
    num_points config batchBad cityNan = 0 ∧
      isErr (pipeline config batchBad noise0 id) = false :=
  claim_C9_no_invalid_record_error config batchBad noise0 id cityNan cityGood
    (by rw [merged_batchBad]; simp) rfl (by rw [merged_batchBad]; simp)
    (by rw [num_points_cityGood]; norm_num)

/-! ### Monotonicity in a record's country traffic (C8) -/

theorem validRecord_setT (c : CityRecord) (t : ℚ) :
    validRecord (setT c t) = validRecord c := rfl

theorem country_pop_nil (s : String) : country_pop [] s = 0 := rfl

theorem country_pop_append (a b : List CityRecord) (s : String) :
    country_pop (a ++ b) s = country_pop a s + country_pop b s := by
  unfold country_pop
  rw [List.filter_append, List.map_append, List.sum_append]

theorem country_pop_cons (x : CityRecord) (l : List CityRecord) (s : String) :
    country_pop (x :: l) s =
      (if x.iso3 = s then x.population else 0) + country_pop l s := by
  unfold country_pop
  rw [List.filter_cons]
  by_cases h : x.iso3 = s <;> simp [h]

theorem prepBatch_middle (pre post : List CityRecord) (c : CityRecord) (t : ℚ) :
    prepBatch (pre ++ setT c t :: post) =
      prepBatch pre ++
        ((if validRecord c then [setT c t] else []) ++ prepBatch post) := by
  unfold prepBatch
  rw [List.filter_append, List.filter_cons, validRecord_setT]
  by_cases h : validRecord c <;> simp [h]

theorem country_pop_prep_const (pre post : List CityRecord) (c : CityRecord)
    (t t' : ℚ) (s : String) :
    country_pop (prepBatch (pre ++ setT c t :: post)) s =
      country_pop (prepBatch (pre ++ setT c t' :: post)) s := by
  rw [prepBatch_middle, prepBatch_middle, country_pop_append, country_pop_append,
    country_pop_append, country_pop_append]
  by_cases h : validRecord c
  · simp [h, country_pop_cons, country_pop_nil, setT]
  · simp [h]

theorem city_traffic_const (pre post : List CityRecord) (c : CityRecord)
    (t t' : ℚ) (x : CityRecord) :
    city_traffic_tb (pre ++ setT c t :: post) x =
      city_traffic_tb (pre ++ setT c t' :: post) x := by
  unfold city_traffic_tb pop_weight
  rw [country_pop_prep_const pre post c t t' x.iso3]

theorem city_traffic_setT (pre post : List CityRecord) (c : CityRecord) (t : ℚ) :
    city_traffic_tb (pre ++ setT c t :: post) (setT c t) =
      t * (c.population /
        country_pop (prepBatch (pre ++ setT c t :: post)) c.iso3) := by
  simp [city_traffic_tb, pop_weight, setT, FVal.mulPos, FVal.cleaned]

theorem merged_middle_gen (pre post : List CityRecord) (c : CityRecord) (t : ℚ)
    (p : CityRecord → Bool) :
    (prepBatch (pre ++ setT c t :: post)).filter p =
      (prepBatch pre).filter p ++
        ((if validRecord c && p (setT c t) then [setT c t] else []) ++
          (prepBatch post).filter p) := by
  rw [prepBatch_middle, List.filter_append, List.filter_append]
  congr 1
  by_cases h : validRecord c
  · by_cases hp : p (setT c t) = true
    · simp [h, hp]
    · simp [h, Bool.eq_false_iff.mpr hp, List.filter_cons,
        Bool.not_eq_true _ ▸ hp]
  · simp [h]

theorem max_log_eq_cond (pre post : List CityRecord) (c : CityRecord) (t : ℚ) :
    max_log (pre ++ setT c t :: post) =
      if validRecord c &&
          decide (0 < country_pop (prepBatch (pre ++ setT c t :: post)) c.iso3) then
        max
          (max (city_traffic_log (pre ++ setT c t :: post) (setT c t)) 0)
          (max
            ((((prepBatch pre).filter (fun r =>
                decide (0 < country_pop (prepBatch (pre ++ setT c t :: post)) r.iso3))).map
                (city_traffic_log (pre ++ setT c t :: post))).foldr max 0)
            ((((prepBatch post).filter (fun r =>
                decide (0 < country_pop (prepBatch (pre ++ setT c t :: post)) r.iso3))).map
                (city_traffic_log (pre ++ setT c t :: post))).foldr max 0))
      else
        max
          ((((prepBatch pre).filter (fun r =>
              decide (0 < country_pop (prepBatch (pre ++ setT c t :: post)) r.iso3))).map
              (city_traffic_log (pre ++ setT c t :: post))).foldr max 0)
          ((((prepBatch post).filter (fun r =>
              decide (0 < country_pop (prepBatch (pre ++ setT c t :: post)) r.iso3))).map
              (city_traffic_log (pre ++ setT c t :: post))).foldr max 0) := by
  unfold max_log merged
  rw [merged_middle_gen pre post c t]
  rw [List.map_append, List.map_append, foldr_max_append, foldr_max_append]
  have hiso : (setT c t).iso3 = c.iso3 := rfl
  rw [hiso]
  by_cases hcond : validRecord c &&
      decide (0 < country_pop (prepBatch (pre ++ setT c t :: post)) c.iso3)
  · rw [if_pos hcond, if_pos hcond]
    simp only [List.map_cons, List.map_nil, List.foldr_cons, List.foldr_nil]
    rw [max_left_comm]
  · rw [if_neg hcond, if_neg hcond]
    simp only [List.map_nil, List.foldr_nil]
    rw [max_eq_right (foldr_max_nonneg _)]

theorem div_const_mono {a b M : ℝ} (h : a ≤ b) :
    (if 0 < M then a / M else a) ≤ (if 0 < M then b / M else b) := by
  by_cases hM : 0 < M
  · rw [if_pos hM, if_pos hM]
    exact (div_le_div_right hM).mpr h
  · rw [if_neg hM, if_neg hM]
    exact h

theorem div_max_mono {a b M : ℝ} (h0 : 0 ≤ a) (hab : a ≤ b) (hM : 0 ≤ M) :
    (if 0 < max a M then a / max a M else a) ≤
      (if 0 < max b M then b / max b M else b) := by
  rcases le_or_lt (max a M) 0 with hm1 | hm1
  · have ha : a = 0 := le_antisymm (le_trans (le_max_left _ _) hm1) h0
    rw [if_neg (not_lt.mpr hm1), ha]
    by_cases hm2 : 0 < max b M
    · rw [if_pos hm2]
      exact div_nonneg (by linarith) (le_of_lt hm2)
    · rw [if_neg hm2]
      linarith
  · have hm2 : 0 < max b M := lt_of_lt_of_le hm1 (max_le_max hab le_rfl)
    rw [if_pos hm1, if_pos hm2]
    rcases le_total b M with hbM | hbM
    · have haM : a ≤ M := le_trans hab hbM
      rw [max_eq_right haM, max_eq_right hbM]
      rw [max_eq_right haM] at hm1
      exact (div_le_div_right hm1).mpr hab
    · rw [max_eq_left hbM]
      have hb : 0 < b := by
        rw [max_eq_left hbM] at hm2
        exact hm2
      rw [div_self (ne_of_gt hb), div_le_one hm1]
      exact le_max_left _ _

/-- C8: holding every other record, the configuration, and everything else
fixed, increasing one record's country traffic value never decreases that
record's point budget (stated for a non-negative population and traffic and
a non-negative point scale, as in the data model and default
configuration). -/
theorem claim_C8_monotonic (cfg : SteamMapConfig) (pre post : List CityRecord)
    (c : CityRecord) (t₁ t₂ : ℚ) (hpop : 0 ≤ c.population)
    (hs : 0 ≤ cfg.POINT_SCALE) (h0 : 0 ≤ t₁) (h12 : t₁ ≤ t₂) :
    num_points cfg (pre ++ setT c t₁ :: post) (setT c t₁)
      ≤ num_points cfg (pre ++ setT c t₂ :: post) (setT c t₂) := by
  apply budgetOfNorm_mono cfg hs
  have hcpf : country_pop (prepBatch (pre ++ setT c t₁ :: post)) =
      country_pop (prepBatch (pre ++ setT c t₂ :: post)) :=
    funext (country_pop_prep_const pre post c t₁ t₂)
  have hctf : city_traffic_tb (pre ++ setT c t₁ :: post) =
      city_traffic_tb (pre ++ setT c t₂ :: post) :=
    funext (city_traffic_const pre post c t₁ t₂)
  have hclf : city_traffic_log (pre ++ setT c t₁ :: post) =
      city_traffic_log (pre ++ setT c t₂ :: post) := by
    funext x
    unfold city_traffic_log
    rw [hctf]
  have hw : 0 ≤ c.population /
      country_pop (prepBatch (pre ++ setT c t₂ :: post)) c.iso3 :=
    div_nonneg hpop (country_pop_nonneg _ _)
  have hT1 : city_traffic_tb (pre ++ setT c t₂ :: post) (setT c t₁) =
      t₁ * (c.population /
        country_pop (prepBatch (pre ++ setT c t₂ :: post)) c.iso3) := by
    rw [← hctf, city_traffic_setT pre post c t₁, hcpf]
  have hT2 : city_traffic_tb (pre ++ setT c t₂ :: post) (setT c t₂) =
      t₂ * (c.population /
        country_pop (prepBatch (pre ++ setT c t₂ :: post)) c.iso3) := by
    rw [city_traffic_setT pre post c t₂]
  have hL0 : 0 ≤ city_traffic_log (pre ++ setT c t₂ :: post) (setT c t₁) := by
    unfold city_traffic_log
    rw [hT1]
    exact log1p_nonneg (mul_nonneg h0 hw)
  have hL12 : city_traffic_log (pre ++ setT c t₂ :: post) (setT c t₁) ≤
      city_traffic_log (pre ++ setT c t₂ :: post) (setT c t₂) := by
    unfold city_traffic_log
    rw [hT1, hT2]
    exact log1p_mono (mul_nonneg h0 hw) (mul_le_mul_of_nonneg_right h12 hw)
  unfold normalized_density
  rw [max_log_eq_cond pre post c t₁, max_log_eq_cond pre post c t₂, hclf, hcpf]
  by_cases hcond : (validRecord c &&
      decide (0 < country_pop (prepBatch (pre ++ setT c t₂ :: post)) c.iso3)) = true
  · rw [if_pos hcond, if_pos hcond, max_eq_left hL0, max_eq_left (le_trans hL0 hL12)]
    exact div_max_mono hL0 hL12 (le_max_of_le_left (foldr_max_nonneg _))
  · rw [if_neg hcond, if_neg hcond]
    exact div_const_mono hL12

/-- Witness for C8: a single record whose traffic grows from 1 to 2 TB. -/
theorem claim_C8_witness :
    (0 ≤ cityVar.population ∧ 0 ≤ config.POINT_SCALE ∧
        (0 : ℚ) ≤ 1 ∧ (1 : ℚ) ≤ 2) ∧
      num_points config ([] ++ setT cityVar 1 :: []) (setT cityVar 1) ≤
        num_points config ([] ++ setT cityVar 2 :: []) (setT cityVar 2) := by
  refine ⟨⟨by norm_num [cityVar], by norm_num [config], by norm_num, by norm_num⟩, ?_⟩
  exact claim_C8_monotonic config [] [] cityVar 1 2 (by norm_num [cityVar])
    (by norm_num [config]) (by norm_num) (by norm_num)
